import Mathlib

/-
  Verification development for the jerich0 captcha package.

  The package file (captcha.go) defines New, NewLen, Reload, WriteImage,
  Verify and VerifyString over a global challenge store; server.go defines
  the HTTP handler's serve routine.  The memory store itself (Get/Set with
  expiry and counter-triggered sweeping) and the random generators are not
  part of the sources at hand, so they are modelled from the specification
  (sections 3 and 4.1); definitions taken from the Go sources carry a
  comment naming the Go function they embed.
-/

namespace Captcha

/-- Number of creations that triggers a sweep (CollectNum in captcha.go). -/
def CollectNum : Nat := 100

/-- Entry time-to-live (Expiration in captcha.go), in seconds. -/
def Expiration : Nat := 600

/-- Default number of classes in a captcha solution (DefaultLen in captcha.go). -/
def DefaultLen : Nat := 6

/-- Modelled from the spec: a store entry pairs the solution (ordered
sequence of class indices) with its absolute expiry deadline. -/
structure Entry where
  solution : List Nat
  expiresAt : Nat
deriving Repr, DecidableEq

/-- Modelled from the spec: the store holds the set of live challenges as an
association list from id to entry, together with the counter of insertions
since the last sweep. -/
structure Store where
  entries : List (String × Entry)
  insertCount : Nat
deriving Repr, DecidableEq

def lookupEntry : List (String × Entry) → String → Option Entry
  | [], _ => none
  | (k, e) :: rest, id => if k = id then some e else lookupEntry rest id

def removeEntry : List (String × Entry) → String → List (String × Entry)
  | [], _ => []
  | (k, e) :: rest, id =>
    if k = id then removeEntry rest id else (k, e) :: removeEntry rest id

/-- Modelled from the spec: the sweep removes all entries whose deadline has
passed. -/
def sweepEntries (now : Nat) (es : List (String × Entry)) : List (String × Entry) :=
  es.filter (fun p => decide (now < p.2.expiresAt))

/-- Modelled from the spec: the memory store's Get (missing from the sources;
only its callers are present).  If no live, non-expired entry exists for the
id it returns none; otherwise it returns the solution and, when `consume` is
true, atomically removes the entry in the same operation. -/
def Store.get (st : Store) (id : String) (consume : Bool) (now : Nat) :
    Option (List Nat) × Store :=
  match lookupEntry st.entries id with
  | none => (none, st)
  | some e =>
    if e.expiresAt ≤ now then (none, st)
    else if consume then
      (some e.solution, { st with entries := removeEntry st.entries id })
    else (some e.solution, st)

/-- Modelled from the spec: the memory store's Set (missing from the
sources).  It overwrites any entry for the id, stamps the new entry with
`now + Expiration`, counts the insertion, and triggers a sweep once the
counter crosses the threshold. -/
def Store.set (st : Store) (id : String) (sol : List Nat) (now : Nat) : Store :=
  let es := (id, Entry.mk sol (now + Expiration)) :: removeEntry st.entries id
  let cnt := st.insertCount + 1
  if CollectNum ≤ cnt then
    { entries := sweepEntries now es, insertCount := 0 }
  else
    { entries := es, insertCount := cnt }

/-- A non-consuming lookup succeeds: the id has a live, non-expired entry. -/
def Store.live (st : Store) (id : String) (now : Nat) : Bool :=
  (st.get id false now).1.isSome

/-- Modelled from the spec: the solution generator (randomBytesMod in the
missing random source file) produces a sequence of the requested length
whose elements are each reduced modulo `m`; the randomness is supplied as
an explicit stream. -/
def randomBytesMod (length : Nat) (m : Nat) (rnd : Nat → Nat) : List Nat :=
  (List.range length).map (fun i => rnd i % m)

/-- Modelled from the spec: RandomDigits (missing from the sources) draws a
fresh solution of the given length, each element a class index in [0,36). -/
def RandomDigits (length : Nat) (rnd : Nat → Nat) : List Nat :=
  randomBytesMod length 36 rnd

/- NewLen from captcha.go: draw a fresh id (supplied here as an argument in
place of the random id generator), store randomBytesMod(length, 36) under
it, and return the id. -/
def NewLen (length : Nat) (id : String) (rnd : Nat → Nat) (st : Store) (now : Nat) :
    String × Store :=
  (id, st.set id (randomBytesMod length 36 rnd) now)

/- New from captcha.go. -/
def New (id : String) (rnd : Nat → Nat) (st : Store) (now : Nat) : String × Store :=
  NewLen DefaultLen id rnd st now

/- Reload from captcha.go: non-consuming Get; if absent return false,
otherwise Set a fresh solution of the old solution's length and return
true. -/
def Reload (st : Store) (id : String) (rnd : Nat → Nat) (now : Nat) : Bool × Store :=
  match (st.get id false now).1 with
  | none => (false, st)
  | some old => (true, st.set id (RandomDigits old.length rnd) now)

/-- Result of an image request: either the id was not found, or an image is
rendered from the id, its current solution, and the dimensions. -/
inductive ImageResult where
  | notFound
  | image (id : String) (solution : List Nat) (width height : Nat)
deriving Repr, DecidableEq

/- WriteImage from captcha.go: non-consuming Get; ErrNotFound if absent,
otherwise render the current solution at the requested dimensions. -/
def WriteImage (st : Store) (id : String) (width height : Nat) (now : Nat) :
    ImageResult × Store :=
  match st.get id false now with
  | (none, st1) => (ImageResult.notFound, st1)
  | (some sol, st1) => (ImageResult.image id sol width height, st1)

/- Verify from captcha.go: reject nil (none) or empty attempts before any
store access; otherwise a consuming Get, false on NotFound, else an
element-wise comparison with the stored solution. -/
def Verify (st : Store) (id : String) (digits : Option (List Nat)) (now : Nat) :
    Bool × Store :=
  match digits with
  | none => (false, st)
  | some ds =>
    if ds.length = 0 then (false, st)
    else
      match st.get id true now with
      | (none, st1) => (false, st1)
      | (some reald, st1) => (decide (ds = reald), st1)

/- The character classification of VerifyString in captcha.go: digits map to
0-9, letters case-insensitively to 10-35, anything else is invalid. -/
def charToIndex (c : Char) : Option Nat :=
  if '0' ≤ c ∧ c ≤ '9' then some (c.toNat - '0'.toNat)
  else if 'A' ≤ c ∧ c ≤ 'Z' then some (c.toNat - 'A'.toNat + 10)
  else if 'a' ≤ c ∧ c ≤ 'z' then some (c.toNat - 'a'.toNat + 10)
  else none

/- The conversion loop of VerifyString in captcha.go: map every character,
bailing out with failure on the first invalid one. -/
def stringToIndices : List Char → Option (List Nat)
  | [] => some []
  | c :: rest =>
    match charToIndex c with
    | none => none
    | some n =>
      match stringToIndices rest with
      | none => none
      | some ns => some (n :: ns)

/- VerifyString from captcha.go: convert the answer to class indices; any
invalid character returns false before any store access, otherwise delegate
to Verify. -/
def VerifyString (st : Store) (id : String) (answer : String) (now : Nat) :
    Bool × Store :=
  match stringToIndices answer.data with
  | none => (false, st)
  | some ns => Verify st id (some ns) now

/-- Outcome of the HTTP serve routine: ErrNotFound (mapped to 404 by the
caller) or a served image, possibly flagged for download. -/
inductive ServeResult where
  | errNotFound
  | ok (content : ImageResult) (download : Bool)
deriving Repr, DecidableEq

/- serve from server.go: reject any extension other than ".png" before
touching the store; otherwise delegate to WriteImage and propagate
ErrNotFound. -/
def serve (st : Store) (id ext : String) (w h now : Nat) (download : Bool) :
    ServeResult × Store :=
  if ext ≠ ".png" then (ServeResult.errNotFound, st)
  else
    match WriteImage st id w h now with
    | (ImageResult.notFound, st1) => (ServeResult.errNotFound, st1)
    | (img, st1) => (ServeResult.ok img download, st1)

/- Helper lemmas about the store. -/

theorem lookupEntry_removeEntry (es : List (String × Entry)) (id : String) :
    lookupEntry (removeEntry es id) id = none := by
  induction es with
  | nil => rfl
  | cons p rest ih =>
    obtain ⟨k, e⟩ := p
    by_cases hk : k = id
    · simpa [removeEntry, hk] using ih
    · simpa [removeEntry, lookupEntry, hk] using ih

theorem get_false_snd (st : Store) (id : String) (now : Nat) :
    (st.get id false now).2 = st := by
  unfold Store.get
  cases lookupEntry st.entries id with
  | none => rfl
  | some e =>
    by_cases he : e.expiresAt ≤ now <;> simp [he]

theorem lookupEntry_set (st : Store) (id : String) (sol : List Nat) (now : Nat) :
    lookupEntry (st.set id sol now).entries id =
      some (Entry.mk sol (now + Expiration)) := by
  unfold Store.set
  by_cases hc : CollectNum ≤ st.insertCount + 1
  · simp only [hc, if_true]
    have hlt : now < now + Expiration := by
      have : 0 < Expiration := by decide
      omega
    simp [sweepEntries, List.filter, hlt, lookupEntry]
  · simp [hc, lookupEntry]

theorem live_iff_lookup (st : Store) (id : String) (now : Nat) :
    st.live id now = true ↔
      ∃ e, lookupEntry st.entries id = some e ∧ now < e.expiresAt := by
  unfold Store.live Store.get
  cases h : lookupEntry st.entries id with
  | none => simp
  | some e =>
    by_cases he : e.expiresAt ≤ now
    · simp [he]
    · simp [he]
      omega

/- Theorems for the claims. -/

/-- C4: Verify with a nil attempt or an empty attempt returns false with the
store untouched, and VerifyString with the empty string likewise returns
false without consuming the entry. -/
theorem verify_empty_rejected (st : Store) (id : String) (now : Nat) :
    Verify st id none now = (false, st) ∧
    Verify st id (some []) now = (false, st) ∧
    VerifyString st id "" now = (false, st) := by
  refine ⟨rfl, rfl, ?_⟩
  rfl

/-- C7: WriteImage never mutates the store (it uses a non-consuming Get, so
the image can be fetched repeatedly before submission), and it returns
NotFound exactly when no live entry exists for the id. -/
theorem writeImage_non_consuming (st : Store) (id : String) (w h now : Nat) :
    (WriteImage st id w h now).2 = st ∧
    ((WriteImage st id w h now).1 = ImageResult.notFound ↔
      st.live id now = false) := by
  unfold WriteImage Store.live
  cases hg : st.get id false now with
  | mk d st1 =>
    have hst : st1 = st := by
      have := get_false_snd st id now
      rw [hg] at this
      exact this
    subst hst
    cases d with
    | none => simp
    | some sol => simp

/-- C10: the serve routine accepts only the ".png" extension: any other
extension yields ErrNotFound with the store untouched and no image
rendered. -/
theorem serve_rejects_non_png (st : Store) (id ext : String) (w h now : Nat)
    (download : Bool) (hext : ext ≠ ".png") :
    serve st id ext w h now download = (ServeResult.errNotFound, st) := by
  unfold serve
  simp [hext]

theorem charToIndex_none_of (c : Char)
    (h : ¬ (('0' ≤ c ∧ c ≤ '9') ∨ ('A' ≤ c ∧ c ≤ 'Z') ∨ ('a' ≤ c ∧ c ≤ 'z'))) :
    charToIndex c = none := by
  have h1 : ¬ ('0' ≤ c ∧ c ≤ '9') := fun hc => h (Or.inl hc)
  have h2 : ¬ ('A' ≤ c ∧ c ≤ 'Z') := fun hc => h (Or.inr (Or.inl hc))
  have h3 : ¬ ('a' ≤ c ∧ c ≤ 'z') := fun hc => h (Or.inr (Or.inr hc))
  unfold charToIndex
  rw [if_neg h1, if_neg h2, if_neg h3]

theorem stringToIndices_none (cs : List Char)
    (h : ∃ c ∈ cs, charToIndex c = none) :
    stringToIndices cs = none := by
  induction cs with
  | nil => simp at h
  | cons c rest ih =>
    rcases h with ⟨d, hd, hnone⟩
    rcases List.mem_cons.mp hd with rfl | hmem
    · unfold stringToIndices
      rw [hnone]
    · unfold stringToIndices
      cases hc : charToIndex c
      · rfl
      · rw [ih ⟨d, hmem, hnone⟩]

/-- C1: verification consumes the challenge whatever the outcome.  After one
Verify call with a non-empty attempt on a live id, any later Verify on the
same id returns false, even with the correct solution. -/
theorem verify_consumes (st : Store) (id : String) (a1 a2 : List Nat) (now : Nat)
    (h1 : a1 ≠ []) (hlive : st.live id now = true) :
    (Verify (Verify st id (some a1) now).2 id (some a2) now).1 = false := by
  obtain ⟨e, hl, hexp⟩ := (live_iff_lookup st id now).mp hlive
  have hlen : ¬ a1.length = 0 := by
    cases a1 with
    | nil => exact absurd rfl h1
    | cons x xs => simp
  have hne : ¬ e.expiresAt ≤ now := by omega
  have hfst : (Verify st id (some a1) now).2 =
      { st with entries := removeEntry st.entries id } := by
    unfold Verify Store.get
    rw [hl]
    simp [hlen, hne]
  rw [hfst]
  by_cases h2 : a2.length = 0
  · simp [Verify, h2]
  · simp [Verify, Store.get, h2, lookupEntry_removeEntry]

/-- Witness for C1: a failed first attempt consumes the entry, so a second
attempt with the true solution still fails. -/
theorem verify_consumes_witness :
    (Verify
      (Verify (Store.mk [("a", Entry.mk [5, 6, 7, 8] 600)] 0) "a"
        (some [1, 2, 3, 4]) 0).2
      "a" (some [5, 6, 7, 8]) 0).1 = false :=
  verify_consumes (Store.mk [("a", Entry.mk [5, 6, 7, 8] 600)] 0) "a"
    [1, 2, 3, 4] [5, 6, 7, 8] 0 (by decide) (by decide)

/-- C2: a string containing any character outside 0-9, A-Z, a-z makes
VerifyString return false with the store untouched, so the challenge is not
consumed and stays live. -/
theorem verifyString_invalid_no_consume (st : Store) (id text : String)
    (now : Nat)
    (h : ∃ c ∈ text.data,
      ¬ (('0' ≤ c ∧ c ≤ '9') ∨ ('A' ≤ c ∧ c ≤ 'Z') ∨ ('a' ≤ c ∧ c ≤ 'z'))) :
    VerifyString st id text now = (false, st) := by
  have hnone : stringToIndices text.data = none := by
    obtain ⟨c, hc, hn⟩ := h
    exact stringToIndices_none _ ⟨c, hc, charToIndex_none_of c hn⟩
  unfold VerifyString
  rw [hnone]

/-- Witness for C2: an attempt containing an exclamation mark is rejected
while the stored entry survives unchanged. -/
theorem verifyString_invalid_no_consume_witness :
    VerifyString (Store.mk [("a", Entry.mk [10, 1] 600)] 0) "a" "a!" 0 =
      (false, Store.mk [("a", Entry.mk [10, 1] 600)] 0) :=
  verifyString_invalid_no_consume (Store.mk [("a", Entry.mk [10, 1] 600)] 0)
    "a" "a!" 0 (by decide)

/-- C3: a consuming Get on a live id returns the stored solution and removes
the entry, so an immediately following non-consuming Get on the same id
returns NotFound. -/
theorem get_consume_exactly_once (st : Store) (id : String) (now : Nat)
    (h : st.live id now = true) :
    (∃ e, lookupEntry st.entries id = some e ∧
        (st.get id true now).1 = some e.solution) ∧
    ((st.get id true now).2.get id false now).1 = none := by
  obtain ⟨e, hl, hexp⟩ := (live_iff_lookup st id now).mp h
  have hne : ¬ e.expiresAt ≤ now := by omega
  have hsnd : (st.get id true now).2 =
      { st with entries := removeEntry st.entries id } := by
    unfold Store.get
    rw [hl]
    simp [hne]
  refine ⟨⟨e, hl, ?_⟩, ?_⟩
  · unfold Store.get
    rw [hl]
    simp [hne]
  · rw [hsnd]
    unfold Store.get
    simp [lookupEntry_removeEntry]

/-- Witness for C3 at a concrete one-entry store. -/
theorem get_consume_exactly_once_witness :
    (∃ e, lookupEntry (Store.mk [("a", Entry.mk [3] 600)] 0).entries "a" =
          some e ∧
        ((Store.mk [("a", Entry.mk [3] 600)] 0).get "a" true 0).1 =
          some e.solution) ∧
    (((Store.mk [("a", Entry.mk [3] 600)] 0).get "a" true 0).2.get
        "a" false 0).1 = none :=
  get_consume_exactly_once (Store.mk [("a", Entry.mk [3] 600)] 0) "a" 0
    (by decide)

/-- C5: the solution stored by NewLen has exactly the requested number of
elements, each a class index in [0,36). -/
theorem newLen_solution_shape (L : Nat) (id : String) (rnd : Nat → Nat)
    (st : Store) (now : Nat) :
    ∃ e, lookupEntry ((NewLen L id rnd st now).2.entries) id = some e ∧
      e.solution.length = L ∧ ∀ x ∈ e.solution, x < 36 := by
  refine ⟨Entry.mk (randomBytesMod L 36 rnd) (now + Expiration), ?_, ?_, ?_⟩
  · unfold NewLen
    exact lookupEntry_set st id _ now
  · simp [randomBytesMod]
  · intro x hx
    simp [randomBytesMod] at hx
    obtain ⟨i, hi, rfl⟩ := hx
    exact Nat.mod_lt _ (by decide)

/-- C6: Reload returns false on a dead id and leaves the store unchanged;
on a live id it returns true and overwrites the entry, under the same id,
with a fresh solution of the old solution's length and a reset expiry. -/
theorem reload_spec (st : Store) (id : String) (rnd : Nat → Nat) (now : Nat) :
    (st.live id now = false → Reload st id rnd now = (false, st)) ∧
    (st.live id now = true →
      (Reload st id rnd now).1 = true ∧
      ∃ old, (st.get id false now).1 = some old ∧
        (RandomDigits old.length rnd).length = old.length ∧
        lookupEntry (Reload st id rnd now).2.entries id =
          some (Entry.mk (RandomDigits old.length rnd) (now + Expiration))) := by
  constructor
  · intro hdead
    have hnone : (st.get id false now).1 = none := by
      unfold Store.live at hdead
      cases hg : (st.get id false now).1
      · rfl
      · rw [hg] at hdead
        simp at hdead
    unfold Reload
    rw [hnone]
  · intro hlive
    have hsome : ∃ old, (st.get id false now).1 = some old := by
      unfold Store.live at hlive
      cases hg : (st.get id false now).1
      · rw [hg] at hlive
        simp at hlive
      · exact ⟨_, rfl⟩
    obtain ⟨old, hold⟩ := hsome
    unfold Reload
    rw [hold]
    refine ⟨rfl, old, rfl, ?_, ?_⟩
    · simp [RandomDigits, randomBytesMod]
    · exact lookupEntry_set st id _ now

/-- Witness for C6: a missing id makes Reload fail; a live id makes it
succeed. -/
theorem reload_spec_witness :
    Reload (Store.mk [] 0) "b" (fun _ => 7) 0 = (false, Store.mk [] 0) ∧
    (Reload (Store.mk [("a", Entry.mk [1, 2] 600)] 0) "a"
      (fun _ => 7) 0).1 = true :=
  ⟨(reload_spec (Store.mk [] 0) "b" (fun _ => 7) 0).1 (by decide),
   ((reload_spec (Store.mk [("a", Entry.mk [1, 2] 600)] 0) "a"
      (fun _ => 7) 0).2 (by decide)).1⟩

/-- C8: the alphabet rule of VerifyString: digit characters map to 0-9 and
letters map case-insensitively to 10-35; once mapped, the indices are
handed to Verify, which compares them to the stored solution. -/
theorem verifyString_alphabet_rule :
    (∀ n ∈ List.range 10, charToIndex (Char.ofNat (48 + n)) = some n) ∧
    (∀ n ∈ List.range 26,
        charToIndex (Char.ofNat (65 + n)) = some (10 + n) ∧
        charToIndex (Char.ofNat (97 + n)) = some (10 + n)) ∧
    (∀ (st : Store) (id answer : String) (ns : List Nat) (now : Nat),
        stringToIndices answer.data = some ns →
        VerifyString st id answer now = Verify st id (some ns) now) := by
  refine ⟨by decide, by decide, ?_⟩
  intro st id answer ns now h
  unfold VerifyString
  rw [h]

/-- Witness for C8: digit 7 maps to 7, both cases of the last letter map to
35, and a fully valid string is verified through its index sequence. -/
theorem verifyString_alphabet_rule_witness :
    charToIndex (Char.ofNat 55) = some 7 ∧
    charToIndex (Char.ofNat 90) = some 35 ∧
    charToIndex (Char.ofNat 122) = some 35 ∧
    VerifyString (Store.mk [] 0) "a" "0A" 0 =
      Verify (Store.mk [] 0) "a" (some [0, 10]) 0 :=
  ⟨verifyString_alphabet_rule.1 7 (by decide),
   (verifyString_alphabet_rule.2.1 25 (by decide)).1,
   (verifyString_alphabet_rule.2.1 25 (by decide)).2,
   verifyString_alphabet_rule.2.2 (Store.mk [] 0) "a" "0A" [0, 10] 0
     (by decide)⟩

theorem stringToIndices_all_valid (cs : List Char)
    (h : ∀ c ∈ cs, (charToIndex c).isSome = true) :
    stringToIndices cs = some (cs.filterMap charToIndex) := by
  induction cs with
  | nil => rfl
  | cons c rest ih =>
    have hc := h c (List.mem_cons_self c rest)
    cases hcx : charToIndex c with
    | none =>
      rw [hcx] at hc
      simp at hc
    | some n =>
      have hrest := ih (fun d hd => h d (List.mem_cons_of_mem c hd))
      unfold stringToIndices
      rw [hcx, hrest]
      simp [List.filterMap_cons, hcx]

/-- C9: on an all-valid string, VerifyString agrees exactly with Verify on
the mapped index sequence, in both the returned Bool and the resulting
store, so it consumes the challenge exactly when that Verify call does. -/
theorem verifyString_refines_verify (st : Store) (id text : String)
    (now : Nat) (h : ∀ c ∈ text.data, (charToIndex c).isSome = true) :
    VerifyString st id text now =
      Verify st id (some (text.data.filterMap charToIndex)) now := by
  unfold VerifyString
  rw [stringToIndices_all_valid text.data h]

/-- Witness for C9 at a concrete store and a concrete valid string. -/
theorem verifyString_refines_verify_witness :
    VerifyString (Store.mk [("a", Entry.mk [1, 11] 600)] 0) "a" "1b" 0 =
      Verify (Store.mk [("a", Entry.mk [1, 11] 600)] 0) "a"
        (some (List.filterMap charToIndex (String.data "1b"))) 0 :=
  verifyString_refines_verify (Store.mk [("a", Entry.mk [1, 11] 600)] 0)
    "a" "1b" 0 (by decide)

/-- Witness for C10 at a concrete non-png extension and a concrete store. -/
theorem serve_rejects_non_png_witness :
    serve (Store.mk [] 0) "abc" ".jpg" 5 5 0 false =
      (ServeResult.errNotFound, Store.mk [] 0) :=
  serve_rejects_non_png (Store.mk [] 0) "abc" ".jpg" 5 5 0 false (by decide)

end Captcha
